import Mathlib

/-!
Verification of the recurring schedule engine in `src/lib/simulator.ts`
(the occurrence calculator `getNextScheduleDayUtc`, the schedule processor
`processSchedules` / `processSchedule`, and the creation entry point
`createSchedule`).

Embedding conventions:

* Instants are milliseconds since the Unix epoch, as `Int` (JS `Date` values).
* The browser host environment is modelled with a fixed UTC offset
  `hostOff` (minutes): `Date.prototype.setDate`/`setHours` operate on the
  host's local calendar fields, which for a fixed-offset host means
  `setDate(getDate()+n)` adds `n * 86400000` ms and `setHours(h, m, 0, 0)`
  rebases the instant to the start of the host-local civil day plus
  `h` hours and `m` minutes (JS lets `h`, `m` be any integers and rolls
  them over, which is exactly what the arithmetic below does).
* A rule timezone (an IANA identifier in the source) is modelled by its
  offset function `tzOff : Int → Int`, minutes east of UTC as a function of
  the instant, so DST-bearing zones are representable.
  `toLocaleDateString('en-US', \x7b weekday, timeZone \x7d)` is the weekday of
  the civil date of the instant in that zone.
* `formatInTimeZone(d, tz, "yyyy-MM-dd'T'HH:mm:ssXXX")` followed by
  `new Date(...)` formats an instant with its zone offset and parses it
  back: it is the identity on instants whose millisecond field is zero
  (and `setHours(h, m, 0, 0)` has just zeroed seconds and milliseconds),
  so in the embedding the candidate instant is `setHoursHost` directly.
* `time` strings are embedded after `split(':').map(Number)`, i.e. as the
  two integers `h`, `m`.
* Topic strings, the Gemini generate step and the WordPress publish step
  are embedded as a `Pipeline` of `Option`-returning functions; a `none`
  models both a `null` result and a thrown client error (either way the
  per-rule `catch` in `processSchedules` receives an error).  The Supabase
  store is a list of records; an `update(...).eq('id', ...)` is the
  per-record rewrite (ids are the table's primary key).
-/

namespace BlogGenie

/-- Milliseconds per minute. -/
def msPerMinute : Int := 60000

/-- Milliseconds per hour. -/
def msPerHour : Int := 3600000

/-- Milliseconds per civil day. -/
def msPerDay : Int := 86400000

/-- Weekday names as produced by `toLocaleDateString('en-US', ...)` and
stored in the `days` column (the `Weekday` union type in `types.ts`). -/
inductive Weekday
  | Sunday | Monday | Tuesday | Wednesday | Thursday | Friday | Saturday
deriving DecidableEq, Repr

/-- Weekday of an epoch day number (day 0 = 1970-01-01, a Thursday). -/
def weekdayOfDay (d : Int) : Weekday :=
  match ((d + 4) % 7).toNat with
  | 0 => .Sunday
  | 1 => .Monday
  | 2 => .Tuesday
  | 3 => .Wednesday
  | 4 => .Thursday
  | 5 => .Friday
  | _ => .Saturday

/-- Environment of a calculator run: the host's fixed UTC offset in minutes
(the browser's local zone, used by `setDate`/`setHours`), and the rule
timezone's offset function (minutes east of UTC at a given instant, used by
the `toLocaleDateString` weekday lookup). -/
structure CalcEnv where
  hostOff : Int
  tzOff : Int → Int

/-- JS `d.setHours(h, m, 0, 0)` on a fixed-offset host: start of the
host-local civil day containing `t`, plus `h` hours and `m` minutes,
expressed back as a UTC instant.  Arbitrary integers `h`, `m` roll over
exactly as in JS. -/
def setHoursHost (env : CalcEnv) (t h m : Int) : Int :=
  msPerDay * ((t + env.hostOff * msPerMinute) / msPerDay)
    + h * msPerHour + m * msPerMinute - env.hostOff * msPerMinute

/-- Weekday of instant `t` expressed in the rule timezone, i.e.
`t.toLocaleDateString('en-US', \x7b weekday: 'long', timeZone: tz \x7d)`. -/
def weekdayInTz (env : CalcEnv) (t : Int) : Weekday :=
  weekdayOfDay ((t + env.tzOff t * msPerMinute) / msPerDay)

/-- Wall-clock minute-of-day of instant `t` expressed in the rule
timezone. -/
def wallClockMinutesInTz (env : CalcEnv) (t : Int) : Int :=
  ((t + env.tzOff t * msPerMinute) % msPerDay) / msPerMinute

/-- The candidate loop of `getNextScheduleDayUtc`: for each `addDays` in
the supplied list (`0..6` in the source), shift `from` by that many host
civil days, look up that instant's weekday in the rule timezone, and if it
is a selected day, build the candidate with `setHours(h, m, 0, 0)` (the
`formatInTimeZone` / `new Date` round trip preserves the instant) and
return it when strictly after `from`. -/
def findCandidate (env : CalcEnv) (days : List Weekday) (h m fromMs : Int) :
    List Nat → Option Int
  | [] => none
  | a :: rest =>
    if days.contains (weekdayInTz env (fromMs + (a : Int) * msPerDay)) then
      if fromMs < setHoursHost env (fromMs + (a : Int) * msPerDay) h m then
        some (setHoursHost env (fromMs + (a : Int) * msPerDay) h m)
      else findCandidate env days h m fromMs rest
    else findCandidate env days h m fromMs rest

/-- `getNextScheduleDayUtc(days, time, tz, from)` from `simulator.ts`:
an empty (or missing / non-array) `days` is replaced by `["Monday"]`;
the loop tries `addDays = 0..6`; if no candidate qualifies the fallback is
"tomorrow at 12:00" host-local time. -/
def getNextScheduleDayUtc (env : CalcEnv) (days : List Weekday) (h m fromMs : Int) : Int :=
  match findCandidate env (if days.isEmpty then [Weekday.Monday] else days)
      h m fromMs (List.range 7) with
  | some t => t
  | none => setHoursHost env (fromMs + msPerDay) 12 0

/-- Environment in which both the host and the rule timezone are UTC. -/
def utcEnv : CalcEnv := ⟨0, fun _ => 0⟩

/-- The `status` column of `post_schedules` (`'pending' | 'completed' |
'failed'` in `types.ts`; the current engine writes only `pending` and
`failed`). -/
inductive ScheduleStatus
  | pending | completed | failed
deriving DecidableEq, Repr

/-- A `post_schedules` row as consumed by the processor (`PostSchedule` in
`types.ts`).  `timeH`/`timeM` are the parsed `time` column; `error` is the
`error` column (the spec's `lastError`).  The row's `local_timezone`
resolution is carried by the ambient `CalcEnv`. -/
structure ScheduleRecord where
  id : Nat
  topics : List String
  timeH : Int
  timeM : Int
  days : List Weekday
  scheduled_at : Int
  status : ScheduleStatus
  error : Option String
deriving DecidableEq, Repr

/-- The publishing pipeline: `GeminiClient.generateBlogContent` returns
`\x7b title, content \x7d | null` and `WordPressClient.createPost` returns a post
(identified here by a number) or `null`; `none` also stands for a thrown
client error. -/
structure Pipeline where
  generateBlogContent : String → Option (String × String)
  createPost : String → String → Option Nat

/-- One topic of the per-schedule loop in `processSchedule`: generate, then
publish; each `null`/failure raises the corresponding `Error` message. -/
def stepResult (p : Pipeline) (topic : String) : Except String Nat :=
  match p.generateBlogContent topic with
  | none => .error ("Failed to generate content for topic: " ++ topic)
  | some c =>
    match p.createPost c.1 c.2 with
    | none => .error ("Failed to create post for topic: " ++ topic)
    | some postId => .ok postId

/-- Whether both steps of a topic succeed. -/
def stepOk (p : Pipeline) (topic : String) : Bool :=
  match stepResult p topic with
  | .ok _ => true
  | .error _ => false

/-- `processSchedule(schedule, wordpressClient, geminiClient)`: run the
topics in array order; the first failing topic aborts the rest by throwing.
The result is the list of posts actually published before the abort (they
are never rolled back) together with the thrown error message, if any. -/
def processSchedule (p : Pipeline) : List String → List Nat × Option String
  | [] => ([], none)
  | t :: rest =>
    match stepResult p t with
    | .error msg => ([], some msg)
    | .ok postId =>
      (postId :: (processSchedule p rest).1, (processSchedule p rest).2)

/-- The per-row behaviour of one `processSchedules` tick: rows are fetched
only when `status = 'pending'` (the Supabase query filter) and acted on
only when `scheduled_at <= now`.  On success the row is updated with
`scheduled_at = nextFire, status = 'pending'` (the `error` column is not
part of the update); the per-row `catch` updates
`status = 'failed', error = message` (and nothing else). -/
def processRule (env : CalcEnv) (p : Pipeline) (now : Int) (r : ScheduleRecord) :
    ScheduleRecord :=
  if r.status = ScheduleStatus.pending ∧ r.scheduled_at ≤ now then
    match (processSchedule p r.topics).2 with
    | some msg => { r with status := ScheduleStatus.failed, error := some msg }
    | none =>
      { r with
          scheduled_at := getNextScheduleDayUtc env r.days r.timeH r.timeM now,
          status := ScheduleStatus.pending }
  else r

/-- One tick of `processSchedules` over the user's table: every row is
rewritten by its own `processRule` outcome (updates are keyed by the
primary-key `id`, so each row's update touches that row alone).  The
source wraps each row in its own `try/catch` and the whole tick in another,
so the tick itself is total: no per-rule failure escapes it. -/
def processSchedules (env : CalcEnv) (p : Pipeline) (now : Int)
    (store : List ScheduleRecord) : List ScheduleRecord :=
  store.map (processRule env p now)

/-- Hexadecimal-digit test matching the character classes of the UUID
regular expression (the `i` flag admits both cases). -/
def isHexChar (c : Char) : Bool :=
  ('0' ≤ c && c ≤ '9') || ('a' ≤ c && c ≤ 'f') || ('A' ≤ c && c ≤ 'F')

/-- The anchored UUID test from `createSchedule`:
8-4-4-4-12 hexadecimal groups separated by hyphens, 36 characters total. -/
def isValidUUID (s : String) : Bool :=
  let cs := s.toList
  cs.length == 36 &&
    (List.range 36).all fun i =>
      if i == 8 || i == 13 || i == 18 || i == 23 then cs.getD i ' ' == '-'
      else isHexChar (cs.getD i ' ')

/-- The row inserted by `createSchedule` into `post_schedules`. -/
structure InsertRecord where
  user_id : String
  topics : List String
  timeH : Int
  timeM : Int
  days : List Weekday
  scheduled_at : Int
  status : ScheduleStatus
deriving DecidableEq, Repr

/-- `createSchedule(userId, topics, time, days)`: validate non-empty
`topics`, non-empty `days` and the UUID shape of `userId` in that order,
returning `false` with no insert on the first failure; otherwise compute
the first occurrence with `getNextScheduleDayUtc` anchored at the current
time and insert the row with `status = 'pending'`.  The returned pair is
(returned boolean, attempted insert). -/
def createSchedule (env : CalcEnv) (now : Int) (userId : String)
    (topics : List String) (timeH timeM : Int) (days : List Weekday) :
    Bool × Option InsertRecord :=
  if topics.isEmpty then (false, none)
  else if days.isEmpty then (false, none)
  else if isValidUUID userId then
    (true, some
      { user_id := userId
        topics := topics
        timeH := timeH
        timeM := timeM
        days := days
        scheduled_at := getNextScheduleDayUtc env days timeH timeM now
        status := ScheduleStatus.pending })
  else (false, none)

/-- Pipeline in which every topic generates and publishes successfully. -/
def pAllOk : Pipeline :=
  ⟨fun t => some (t, t), fun _ _ => some 1⟩

/-- Pipeline realizing the spec's Scenario C shape: topic "a" generates
and publishes, topic "b" fails at the generation step. -/
def pFailB : Pipeline :=
  ⟨fun t => if t == "b" then none else some (t, t), fun _ _ => some 7⟩

/-- Due pending rule with two topics, used for the failure-path claims. -/
def rC1 : ScheduleRecord :=
  ⟨1, ["a", "b"], 9, 0, [Weekday.Monday], 0, ScheduleStatus.pending, none⟩

/-- Due pending rule carrying a stale error message from an earlier
failure. -/
def rC2 : ScheduleRecord :=
  ⟨2, ["a"], 9, 0, [Weekday.Monday], 0, ScheduleStatus.pending, some "old"⟩

/-- Due failed rule whose topics would all succeed if retried. -/
def rC3 : ScheduleRecord :=
  ⟨3, ["a"], 9, 0, [Weekday.Monday], 0, ScheduleStatus.failed, some "boom"⟩

/-- Due pending rule with a clean error column. -/
def rDemo : ScheduleRecord :=
  ⟨4, ["a"], 9, 0, [Weekday.Monday], 0, ScheduleStatus.pending, none⟩

/-- Any instant produced by the candidate loop is strictly after `from`
(the loop only returns a candidate passing the `asUtc > from` guard). -/
lemma findCandidate_some_gt (env : CalcEnv) (days : List Weekday) (h m fromMs : Int) :
    ∀ (l : List Nat) (t : Int), findCandidate env days h m fromMs l = some t → fromMs < t := by
  intro l
  induction l with
  | nil =>
    intro t ht
    simp [findCandidate] at ht
  | cons a rest ih =>
    intro t ht
    unfold findCandidate at ht
    by_cases h1 : days.contains (weekdayInTz env (fromMs + (a : Int) * msPerDay))
    · rw [if_pos h1] at ht
      by_cases h2 : fromMs < setHoursHost env (fromMs + (a : Int) * msPerDay) h m
      · rw [if_pos h2] at ht
        simp only [Option.some.injEq] at ht
        rw [← ht]
        exact h2
      · rw [if_neg h2] at ht
        exact ih t ht
    · rw [if_neg h1] at ht
      exact ih t ht

/-- The fallback instant (tomorrow at 12:00 host-local) is strictly after
`from`. -/
lemma fallback_gt (env : CalcEnv) (fromMs : Int) :
    fromMs < setHoursHost env (fromMs + msPerDay) 12 0 := by
  unfold setHoursHost msPerDay msPerHour msPerMinute
  omega

/-- A prefix of topics that all succeed leaves the error of the remaining
topics unchanged and contributes exactly one published post per topic. -/
lemma processSchedule_all_ok_front (p : Pipeline) (pre rest : List String)
    (hpre : ∀ t ∈ pre, stepOk p t = true) :
    (processSchedule p (pre ++ rest)).2 = (processSchedule p rest).2 ∧
    (processSchedule p (pre ++ rest)).1.length =
      pre.length + (processSchedule p rest).1.length := by
  induction pre with
  | nil => simp
  | cons t ts ih =>
    have ht : stepOk p t = true := hpre t (by simp)
    have hts : ∀ x ∈ ts, stepOk p x = true := fun x hx => hpre x (by simp [hx])
    obtain ⟨h1, h2⟩ := ih hts
    unfold stepOk at ht
    cases hsr : stepResult p t with
    | error msg => rw [hsr] at ht; simp at ht
    | ok postId =>
      have hred : processSchedule p (t :: (ts ++ rest)) =
          (postId :: (processSchedule p (ts ++ rest)).1,
            (processSchedule p (ts ++ rest)).2) := by
        simp [processSchedule, hsr]
      rw [List.cons_append, hred]
      refine ⟨h1, ?_⟩
      simp only [List.length_cons, h2]
      omega

/-- A failing topic at the head of the list publishes nothing and raises
its error message. -/
lemma processSchedule_fail_head (p : Pipeline) (topic : String) (post : List String)
    (msg : String) (hfail : stepResult p topic = Except.error msg) :
    processSchedule p (topic :: post) = ([], some msg) := by
  simp [processSchedule, hfail]

/-- Map lookup used to reason about the per-row tick. -/
lemma processSchedules_getElem? (env : CalcEnv) (p : Pipeline) (now : Int)
    (store : List ScheduleRecord) (i : Nat) (r : ScheduleRecord)
    (h : store[i]? = some r) :
    (processSchedules env p now store)[i]? = some (processRule env p now r) := by
  simp [processSchedules, List.getElem?_map, h]

/-- C1 (amended): for every due rule whose topic batch fails at some topic,
the processor aborts the remaining topics, sets the rule's status to failed
with the error column equal to the triggering error's message, and leaves
`scheduled_at` unchanged (the failure-path update writes only `status` and
`error`); topics published before the failure are not rolled back (one post
per preceding topic is retained). -/
theorem claim_C1 (env : CalcEnv) (p : Pipeline) (now : Int) (r : ScheduleRecord)
    (pre : List String) (topic : String) (post : List String) (msg : String)
    (hstat : r.status = ScheduleStatus.pending)
    (hdue : r.scheduled_at ≤ now)
    (htop : r.topics = pre ++ topic :: post)
    (hpre : ∀ t ∈ pre, stepOk p t = true)
    (hfail : stepResult p topic = Except.error msg) :
    processRule env p now r =
      { r with status := ScheduleStatus.failed, error := some msg } ∧
    (processSchedule p r.topics).1.length = pre.length := by
  obtain ⟨h1, h2⟩ := processSchedule_all_ok_front p pre (topic :: post) hpre
  rw [processSchedule_fail_head p topic post msg hfail] at h1 h2
  simp only [List.length_nil, Nat.add_zero] at h1 h2
  refine ⟨?_, ?_⟩
  · unfold processRule
    rw [if_pos ⟨hstat, hdue⟩, htop, h1]
  · rw [htop]
    exact h2

/-- C1 witness: the Scenario C shape (two topics, the first publishes, the
second fails to generate) at a concrete due rule. -/
theorem claim_C1_witness :
    processRule utcEnv pFailB 100 rC1 =
      { rC1 with status := ScheduleStatus.failed,
                 error := some "Failed to generate content for topic: b" } ∧
    (processSchedule pFailB rC1.topics).1.length = ["a"].length :=
  claim_C1 utcEnv pFailB 100 rC1 ["a"] "b" []
    "Failed to generate content for topic: b"
    rfl (by decide) rfl (by decide) rfl

/-- C1 counterexample: on the failure path the code's update does not touch
`scheduled_at`; the rule keeps its past instant (0) and that differs from
the occurrence the calculator would derive at the tick's now (100). -/
theorem claim_C1_counterexample :
    (processRule utcEnv pFailB 100 rC1).status = ScheduleStatus.failed ∧
    (processRule utcEnv pFailB 100 rC1).scheduled_at = 0 ∧
    getNextScheduleDayUtc utcEnv rC1.days rC1.timeH rC1.timeM 100 = 378000000 ∧
    (0 : Int) ≠ 378000000 := by decide

/-- C2 (amended): for every due rule whose topics all succeed, the
processor writes `scheduled_at = ` the calculator's next occurrence
anchored at the tick's now together with `status = pending` in a single
update; the error column is left as it was, not cleared. -/
theorem claim_C2 (env : CalcEnv) (p : Pipeline) (now : Int) (r : ScheduleRecord)
    (hstat : r.status = ScheduleStatus.pending)
    (hdue : r.scheduled_at ≤ now)
    (hok : (processSchedule p r.topics).2 = none) :
    processRule env p now r =
      { r with
          scheduled_at := getNextScheduleDayUtc env r.days r.timeH r.timeM now,
          status := ScheduleStatus.pending } := by
  unfold processRule
  rw [if_pos ⟨hstat, hdue⟩, hok]

/-- C2 witness: a due rule with one succeeding topic re-arms with the
recomputed occurrence. -/
theorem claim_C2_witness :
    processRule utcEnv pAllOk 100 rDemo =
      { rDemo with
          scheduled_at := getNextScheduleDayUtc utcEnv rDemo.days rDemo.timeH rDemo.timeM 100,
          status := ScheduleStatus.pending } :=
  claim_C2 utcEnv pAllOk 100 rDemo rfl (by decide) rfl

/-- C2 counterexample: a due rule carrying a stale error message succeeds
on all topics, yet the success-path update (which writes only
`scheduled_at` and `status`) leaves the error column set instead of
clearing it. -/
theorem claim_C2_counterexample :
    (processRule utcEnv pAllOk 100 rC2).status = ScheduleStatus.pending ∧
    (processRule utcEnv pAllOk 100 rC2).scheduled_at = 378000000 ∧
    (processRule utcEnv pAllOk 100 rC2).error = some "old" := by decide

/-- C3 (amended): a rule with status failed is never selected by the
polling query (which filters on `status = 'pending'`), so a tick leaves it
entirely unchanged no matter how far in the past its `scheduled_at` lies:
absent external edits, failed is terminal for the engine. -/
theorem claim_C3 (env : CalcEnv) (p : Pipeline) (now : Int)
    (store : List ScheduleRecord) (i : Nat) (r : ScheduleRecord)
    (h : store[i]? = some r) (hf : r.status = ScheduleStatus.failed) :
    (processSchedules env p now store)[i]? = some r := by
  have hfix : processRule env p now r = r := by
    unfold processRule
    rw [if_neg]
    rintro ⟨h1, -⟩
    rw [hf] at h1
    exact ScheduleStatus.noConfusion h1
  rw [processSchedules_getElem? env p now store i r h, hfix]

/-- C3 witness: a concrete failed, long-due rule survives a tick
untouched. -/
theorem claim_C3_witness :
    (processSchedules utcEnv pAllOk 100 [rC3])[0]? = some rC3 :=
  claim_C3 utcEnv pAllOk 100 [rC3] 0 rC3 rfl rfl

/-- C3 counterexample: a failed rule that is past due and whose topics
would all succeed is not picked up by the tick: its status stays failed and
its error column stays set, refuting the claimed failed-to-pending
transition. -/
theorem claim_C3_counterexample :
    processSchedules utcEnv pAllOk 100 [rC3] = [rC3] ∧
    rC3.status = ScheduleStatus.failed ∧
    rC3.scheduled_at ≤ 100 ∧
    (processSchedule pAllOk rC3.topics).2 = none ∧
    rC3.error = some "boom" := by decide

/-- C4: for every host offset, timezone offset function, weekday set,
parsed time-of-day and reference instant, the instant returned by
getNextScheduleDayUtc is strictly greater than `from`, including on the
no-candidate fallback path. -/
theorem claim_C4 (env : CalcEnv) (days : List Weekday) (h m fromMs : Int) :
    fromMs < getNextScheduleDayUtc env days h m fromMs := by
  unfold getNextScheduleDayUtc
  split
  next t heq =>
    exact findCandidate_some_gt env
      (if days.isEmpty then [Weekday.Monday] else days) h m fromMs (List.range 7) t heq
  next heq => exact fallback_gt env fromMs

/-- C5 (code bug): with weekdays = [Monday], time 09:00, timezone UTC and
from = 2024-01-01T10:00:00Z (valid, non-empty input), the function returns
the fallback 2024-01-02T12:00:00Z, a Tuesday at 12:00 local time — the
returned instant's civil weekday is not a member of weekdays and its wall
clock is not timeOfDay, contradicting the weekday-correctness property the
code's own comments promise. -/
theorem claim_C5_demo :
    getNextScheduleDayUtc utcEnv [Weekday.Monday] 9 0 1704103200000 = 1704196800000 ∧
    weekdayInTz utcEnv 1704196800000 = Weekday.Tuesday ∧
    [Weekday.Monday].contains Weekday.Tuesday = false ∧
    wallClockMinutesInTz utcEnv 1704196800000 = 720 ∧
    (720 : Int) ≠ 540 := by decide

/-- C6 (code bug): Scenario A holds (from 2024-01-01T00:00:00Z the result
is 2024-01-01T09:00:00Z), but Scenario B fails: from 2024-01-01T10:00:00Z
the 7-candidate loop never reaches the following Monday and the function
falls back to 2024-01-02T12:00:00Z instead of 2024-01-08T09:00:00Z. -/
theorem claim_C6_demo :
    getNextScheduleDayUtc utcEnv [Weekday.Monday] 9 0 1704067200000 = 1704099600000 ∧
    getNextScheduleDayUtc utcEnv [Weekday.Monday] 9 0 1704103200000 = 1704196800000 ∧
    (1704196800000 : Int) ≠ 1704704400000 := by decide

/-- C7 (code bug): with from exactly at 09:00 on a selected Monday
(2024-01-01T09:00:00Z), today's candidate is indeed rejected by the strict
inequality (the result differs from `from`), but the result is the
fallback 2024-01-02T12:00:00Z, not the instant 7 days later
(2024-01-08T09:00:00Z) that the claim requires. -/
theorem claim_C7_demo :
    getNextScheduleDayUtc utcEnv [Weekday.Monday] 9 0 1704099600000 = 1704196800000 ∧
    (1704196800000 : Int) ≠ 1704099600000 ∧
    (1704196800000 : Int) ≠ 1704704400000 := by decide

/-- C8: an empty weekday list does not make the calculator fail: it is
replaced by the single default weekday Monday, and the result is exactly
the result for the substituted set, for every remaining input. -/
theorem claim_C8 (env : CalcEnv) (h m fromMs : Int) :
    getNextScheduleDayUtc env [] h m fromMs =
      getNextScheduleDayUtc env [Weekday.Monday] h m fromMs := rfl

/-- C9: the persisted outcome of the rule at any position of the store is
`processRule` of that rule alone — altering, failing or reordering the
other rules of the tick cannot change it — and a tick rewrites exactly its
input rows (it is a total function: every per-rule error is absorbed into
that rule's own failed outcome, so `processSchedules` never raises). -/
theorem claim_C9 (env : CalcEnv) (p : Pipeline) (now : Int)
    (store : List ScheduleRecord) (i : Nat) (r : ScheduleRecord)
    (h : store[i]? = some r) :
    (processSchedules env p now store)[i]? = some (processRule env p now r) ∧
    (processSchedules env p now store).length = store.length :=
  ⟨processSchedules_getElem? env p now store i r h, by simp [processSchedules]⟩

/-- C9 witness: a tick over a failing rule followed by a healthy rule still
produces the healthy rule's own outcome at its position. -/
theorem claim_C9_witness :
    (processSchedules utcEnv pFailB 100 [rC1, rDemo])[1]? =
      some (processRule utcEnv pFailB 100 rDemo) ∧
    (processSchedules utcEnv pFailB 100 [rC1, rDemo]).length = 2 :=
  claim_C9 utcEnv pFailB 100 [rC1, rDemo] 1 rDemo rfl

/-- C10: createSchedule inserts no row and returns false exactly when one
of the three validations fails (empty topics, empty days, or a userId that
is not UUID-shaped); equivalently, the store is written only when all
three validations pass. -/
theorem claim_C10 (env : CalcEnv) (now : Int) (userId : String)
    (topics : List String) (timeH timeM : Int) (days : List Weekday) :
    ((createSchedule env now userId topics timeH timeM days).2 = none ↔
      (topics = [] ∨ days = [] ∨ isValidUUID userId = false)) ∧
    ((createSchedule env now userId topics timeH timeM days).1 = false ↔
      (topics = [] ∨ days = [] ∨ isValidUUID userId = false)) := by
  unfold createSchedule
  split_ifs with h1 h2 h3 <;> simp_all [List.isEmpty_iff]

end BlogGenie
